import Mathlib

/-!
Shallow embedding of the storefront application in `src/app.py`.

The SQLAlchemy data model (User, Category, Product, Order, OrderItem,
CartItem) becomes Lean structures; the database is an explicit state
(lists of rows in insertion order, plus autoincrement counters).  The
request handlers `home`, `cart` (bulk quantity update / remove),
`add_to_cart`, `checkout`, `login` and `register` become pure functions
from a database state to an outcome together with the post-state.

Conventions:
* `Float` columns (prices, totals) are modelled as `ℚ`; `Integer`
  columns as `ℤ`; autoincrement primary keys as `ℕ`.
* `Option` around a handler result captures an unhandled Python
  exception: `none` means the request crashes and nothing is committed.
* Password hashing (werkzeug) is an external collaborator: `register`
  and `login` are parametrised by the hash and check functions.
-/

structure User where
  id : Nat
  email : String
  password : String
  name : String
  address : String
  deriving DecidableEq, Repr

structure Category where
  id : Nat
  name : String
  deriving DecidableEq, Repr

structure Product where
  id : Nat
  name : String
  description : String
  price : ℚ
  image : String
  category_id : Option Nat
  stock : Int
  deriving DecidableEq, Repr

structure Order where
  id : Nat
  user_id : Nat
  total : ℚ
  deriving DecidableEq, Repr

structure OrderItem where
  id : Nat
  order_id : Nat
  product_id : Nat
  quantity : Int
  price : ℚ
  deriving DecidableEq, Repr

structure CartItem where
  id : Nat
  user_id : Nat
  product_id : Nat
  quantity : Int
  deriving DecidableEq, Repr

structure DB where
  users : List User
  categories : List Category
  products : List Product
  orders : List Order
  orderItems : List OrderItem
  cartItems : List CartItem
  nextUserId : Nat
  nextOrderId : Nat
  nextOrderItemId : Nat
  nextCartItemId : Nat
  deriving DecidableEq, Repr

/-- Resolve a `product_id` foreign key (`item.product` relationship). -/
def lookupProduct (prods : List Product) (pid : Nat) : Option Product :=
  prods.find? (fun p => p.id == pid)

/-- `CartItem.query.filter_by(user_id=current_user.id).all()`. -/
def userCart (db : DB) (uid : Nat) : List CartItem :=
  db.cartItems.filter (fun ci => ci.user_id == uid)

/-- The stock-availability loop of `checkout` (app.py lines 161-164):
`none` = a cart line references a missing product (the Python attribute
access would crash); `some (some (n, s))` = the first failing line's
product name and available stock; `some none` = every line passes. -/
def stockCheck (prods : List Product) : List CartItem → Option (Option (String × Int))
  | [] => some none
  | ci :: rest =>
    match lookupProduct prods ci.product_id with
    | none => none
    | some p =>
      if p.stock < ci.quantity then some (some (p.name, p.stock))
      else stockCheck prods rest

/-- `sum(item.product.price * item.quantity for item in cart_items)`
(app.py line 166); `none` = a lookup crashes. -/
def cartSum (prods : List Product) : List CartItem → Option ℚ
  | [] => some 0
  | ci :: rest =>
    match lookupProduct prods ci.product_id, cartSum prods rest with
    | some p, some t => some (p.price * ci.quantity + t)
    | _, _ => none

/-- The per-row effect of the stock decrement on the product with the
given id. -/
def stockAdj (pid : Nat) (qty : Int) (p : Product) : Product :=
  if p.id == pid then { p with stock := max 0 (p.stock - qty) } else p

/-- `item.product.stock = max(0, item.product.stock - item.quantity)`
(app.py line 174), as an update of the products table. -/
def decStock (prods : List Product) (pid : Nat) (qty : Int) : List Product :=
  prods.map (stockAdj pid qty)

/-- The write loop of `checkout` (app.py lines 170-175): for each cart
line, snapshot an `OrderItem` (live price at this instant), decrement
the product's stock, and move on.  Returns the created order items, the
updated products table and the next free order-item id. -/
def checkoutLoop (oid : Nat) : List CartItem → List Product → Nat →
    Option (List OrderItem × List Product × Nat)
  | [], prods, nid => some ([], prods, nid)
  | ci :: rest, prods, nid =>
    match lookupProduct prods ci.product_id with
    | none => none
    | some p =>
      match checkoutLoop oid rest (decStock prods ci.product_id ci.quantity) (nid + 1) with
      | none => none
      | some (ois, prodsFinal, nidFinal) =>
        some ({ id := nid, order_id := oid, product_id := ci.product_id,
                quantity := ci.quantity, price := p.price } :: ois, prodsFinal, nidFinal)

inductive CheckoutOutcome where
  | emptyCart
  | insufficientStock (name : String) (available : Int)
  | success
  deriving DecidableEq, Repr

/-- POST `/checkout` (app.py lines 154-179).  The outcome is paired with
the committed post-state; error outcomes redirect without writing. -/
def checkout (db : DB) (uid : Nat) : Option (CheckoutOutcome × DB) :=
  let items := userCart db uid
  if items.isEmpty then some (.emptyCart, db)
  else
    match stockCheck db.products items with
    | none => none
    | some (some (n, s)) => some (.insufficientStock n s, db)
    | some none =>
      match cartSum db.products items with
      | none => none
      | some total =>
        match checkoutLoop db.nextOrderId items db.products db.nextOrderItemId with
        | none => none
        | some (ois, prodsFinal, nidFinal) =>
          some (.success,
            { db with
              products := prodsFinal
              orders := db.orders ++ [{ id := db.nextOrderId, user_id := uid, total := total }]
              orderItems := db.orderItems ++ ois
              cartItems := db.cartItems.filter (fun ci => !(ci.user_id == uid))
              nextOrderId := db.nextOrderId + 1
              nextOrderItemId := nidFinal })

/-- Sum of `price * quantity` over a list of order items. -/
def orderItemsSum : List OrderItem → ℚ
  | [] => 0
  | oi :: rest => oi.price * oi.quantity + orderItemsSum rest

/-- The order items belonging to order `oid` (the `Order.items`
relationship). -/
def orderItemsOf (db : DB) (oid : Nat) : List OrderItem :=
  db.orderItems.filter (fun oi => oi.order_id == oid)

/-- Update the first list element satisfying `pred`
(`query.filter_by(...).first()` followed by a field assignment). -/
def updateFirst (pred : α → Bool) (f : α → α) : List α → List α
  | [] => []
  | x :: xs => if pred x then f x :: xs else x :: updateFirst pred f xs

/-- Delete the first list element satisfying `pred`
(`query.filter_by(...).first()` followed by `db.session.delete`). -/
def removeFirst (pred : α → Bool) : List α → List α
  | [] => []
  | x :: xs => if pred x then xs else x :: removeFirst pred xs

/-- The quantity sanitisation of the cart update (app.py lines 116-117):
`max(1, q)` then `min(q, 100)`. -/
def clampQuantity (q : Int) : Int := min (max 1 q) 100

/-- One iteration of the cart-update loop (app.py lines 108-120): if the
form field is `quantity_<pid>`, parse the product id and the value (a
parse failure skips the field), clamp the value into `[1,100]`, and set
the quantity of the user's first matching cart line, if any. -/
def cartUpdateStep (uid : Nat) (db : DB) (kv : String × String) : DB :=
  if kv.1.startsWith "quantity_" then
    match ((kv.1.splitOn "_").get? 1).bind String.toInt?, String.toInt? kv.2 with
    | some pid, some q =>
      let items := updateFirst (fun ci => ci.user_id == uid && ((ci.product_id : Int) == pid))
        (fun ci => { ci with quantity := clampQuantity q }) db.cartItems
      { db with cartItems := items }
    | _, _ => db
  else db

/-- POST `/cart` with an `update` field (app.py lines 107-121): the loop
over all submitted form fields. -/
def cartUpdate (db : DB) (uid : Nat) (form : List (String × String)) : DB :=
  form.foldl (cartUpdateStep uid) db

/-- POST `/cart` with a `remove` field (app.py lines 123-131): parse the
product id (a parse failure does nothing) and delete the user's first
matching cart line, if any. -/
def cartRemove (db : DB) (uid : Nat) (value : String) : DB :=
  match String.toInt? value with
  | none => db
  | some pid =>
    let items := removeFirst (fun ci => ci.user_id == uid && ((ci.product_id : Int) == pid))
      db.cartItems
    { db with cartItems := items }

/-- GET `/add_to_cart/<int:product_id>` (app.py lines 139-149): 404 when
the product does not exist (`none`); otherwise increment the existing
cart line's quantity capped at 100, or insert a fresh line with
quantity 1. -/
def add_to_cart (db : DB) (uid : Nat) (pid : Nat) : Option DB :=
  match lookupProduct db.products pid with
  | none => none
  | some _ =>
    match db.cartItems.find? (fun ci => ci.user_id == uid && ci.product_id == pid) with
    | some _ =>
      let items := updateFirst (fun ci => ci.user_id == uid && ci.product_id == pid)
        (fun ci => { ci with quantity := min (ci.quantity + 1) 100 }) db.cartItems
      some { db with cartItems := items }
    | none =>
      some { db with
        cartItems := db.cartItems ++
          [{ id := db.nextCartItemId, user_id := uid, product_id := pid, quantity := 1 }]
        nextCartItemId := db.nextCartItemId + 1 }

/-- `sub` occurs as a contiguous substring of the character list. -/
def hasSubList (sub : List Char) : List Char → Bool
  | [] => sub.isEmpty
  | c :: rest => sub.isPrefixOf (c :: rest) || hasSubList sub rest

/-- `Product.name.contains(search)`: substring match on the name. -/
def strHasSub (hay sub : String) : Bool := hasSubList sub.toList hay.toList

/-- `Product.query.join(Category)` (app.py line 75): an inner join, so
only products whose `category_id` matches an existing category survive. -/
def joinCategories (db : DB) : List Product :=
  db.products.filter (fun p => db.categories.any (fun c => p.category_id == some c.id))

/-- `if search: query.filter(Product.name.contains(search))` (app.py
lines 77-78); an absent or empty parameter is falsy and skips the filter. -/
def applySearch (search : Option String) (l : List Product) : List Product :=
  match search with
  | none => l
  | some s => if s.isEmpty then l else l.filter (fun p => strHasSub p.name s)

/-- `if category_id: try int(...)` filter (app.py lines 79-84); absent or
empty skips, an unparsable id is swallowed (`except ValueError: pass`). -/
def applyCategory (category : Option String) (l : List Product) : List Product :=
  match category with
  | none => l
  | some cs =>
    if cs.isEmpty then l
    else
      match String.toInt? cs with
      | none => l
      | some cid =>
        l.filter (fun p =>
          match p.category_id with
          | some n => (n : Int) == cid
          | none => false)

/-- The `order_by` dispatch (app.py lines 86-91).  SQL `ORDER BY` is
modelled as a stable sort by the chosen key; name ascending is the
default branch. -/
def applySort (sort : String) (l : List Product) : List Product :=
  if sort == "price_low" then l.insertionSort (fun a b => a.price ≤ b.price)
  else if sort == "price_high" then l.insertionSort (fun a b => b.price ≤ a.price)
  else l.insertionSort (fun a b => a.name ≤ b.name)

/-- `query.paginate(page=page, per_page=6, error_out=False)` (app.py
line 93): a page below 1 is replaced by 1, a page past the end is empty. -/
def paginate (page : Int) (l : List Product) : List Product :=
  (l.drop ((max 1 page - 1).toNat * 6)).take 6

/-- GET `/` (app.py lines 69-95): the catalog listing actually returned
for the requested page. -/
def home (db : DB) (page : Int) (search : Option String) (category : Option String)
    (sort : String) : List Product :=
  paginate page (applySort sort (applyCategory category (applySearch search (joinCategories db))))

inductive RegisterOutcome where
  | emailTaken
  | registered
  deriving DecidableEq, Repr

/-- POST `/register` (app.py lines 205-217), parametrised by the external
`generate_password_hash` function `gen`.  A duplicate email flashes
"Email already registered" and writes nothing. -/
def register (gen : String → String) (db : DB)
    (email password name address : String) : RegisterOutcome × DB :=
  let hashed := gen password
  match db.users.find? (fun u => u.email == email) with
  | some _ => (.emailTaken, db)
  | none =>
    (.registered,
      { db with
        users := db.users ++
          [{ id := db.nextUserId, email := email, password := hashed,
             name := name, address := address }]
        nextUserId := db.nextUserId + 1 })

/-- POST `/login` (app.py lines 193-200), parametrised by the external
`check_password_hash` function `chk`: `some uid` = session established
for that user, `none` = "Invalid credentials". -/
def login (chk : String → String → Bool) (db : DB) (email password : String) : Option Nat :=
  match db.users.find? (fun u => u.email == email) with
  | some u => if chk u.password password then some u.id else none
  | none => none

/-- Modelled from the spec: the per-row effect of a later change to the
live catalog price of the product with the given id. -/
def priceAdj (pid : Nat) (newPrice : ℚ) (p : Product) : Product :=
  if p.id == pid then { p with price := newPrice } else p

/-- Modelled from the spec: "later price changes don't retroactively
alter historical orders".  No route in `src/app.py` mutates
`Product.price`, so the later change to the live catalog price is
modelled as a direct update of the product row. -/
def setPrice (db : DB) (pid : Nat) (newPrice : ℚ) : DB :=
  { db with products := db.products.map (priceAdj pid newPrice) }

/-- The spec's cart invariant: every cart line's quantity lies in
`[1,100]`. -/
def cartQuantitiesOK (db : DB) : Prop :=
  ∀ ci ∈ db.cartItems, 1 ≤ ci.quantity ∧ ci.quantity ≤ 100

-- Sanity checks on a tiny concrete state.

def sampleProduct : Product :=
  { id := 1, name := "Widget", description := "", price := 5, image := "",
    category_id := some 1, stock := 10 }

def sampleDB : DB :=
  { users := [{ id := 1, email := "a@b.c", password := "h", name := "A", address := "" }]
    categories := [{ id := 1, name := "Stuff" }]
    products := [sampleProduct]
    orders := []
    orderItems := []
    cartItems := [{ id := 1, user_id := 1, product_id := 1, quantity := 2 }]
    nextUserId := 2, nextOrderId := 1, nextOrderItemId := 1, nextCartItemId := 2 }

/-- The state committed by `checkout sampleDB 1`. -/
def sampleDBAfter : DB :=
  { sampleDB with
    products := [{ sampleProduct with stock := 8 }]
    orders := [{ id := 1, user_id := 1, total := 10 }]
    orderItems := [{ id := 1, order_id := 1, product_id := 1, quantity := 2, price := 5 }]
    cartItems := []
    nextOrderId := 2, nextOrderItemId := 2 }

/-- `sampleDB` with a cart line whose quantity exceeds the stock. -/
def sampleDBOver : DB :=
  { sampleDB with cartItems := [{ id := 1, user_id := 1, product_id := 1, quantity := 15 }] }

/-- A concrete stand-in for the external hash generator. -/
def genW (s : String) : String := "hash:" ++ s

/-- A concrete stand-in for the external hash check, accepting exactly
the hashes `genW` produces. -/
def chkW (h s : String) : Bool := h == "hash:" ++ s

/-- Concrete evaluation of `checkout` on the sample state. -/
theorem checkout_sampleDB_eq : checkout sampleDB 1 = some (.success, sampleDBAfter) := by
  simp [checkout, sampleDB, sampleDBAfter, sampleProduct, userCart, stockCheck, cartSum,
    checkoutLoop, lookupProduct, decStock, stockAdj]
  norm_num

/-- Concrete evaluation: an empty cart aborts without writes. -/
theorem checkout_emptyCart_eq : checkout sampleDB 2 = some (.emptyCart, sampleDB) := by
  simp [checkout, sampleDB, userCart]

-- Basic facts about the table helpers.

theorem stockAdj_id (pid : Nat) (qty : Int) (p : Product) : (stockAdj pid qty p).id = p.id := by
  unfold stockAdj; split <;> rfl

theorem stockAdj_price (pid : Nat) (qty : Int) (p : Product) :
    (stockAdj pid qty p).price = p.price := by
  unfold stockAdj; split <;> rfl

theorem lookupProduct_map (f : Product → Product) (hf : ∀ p, (f p).id = p.id)
    (prods : List Product) (pid : Nat) :
    lookupProduct (prods.map f) pid = (lookupProduct prods pid).map f := by
  induction prods with
  | nil => rfl
  | cons p rest ih =>
    simp only [lookupProduct, List.map_cons, List.find?_cons] at *
    rw [hf p]
    cases h : (p.id == pid) <;> simp [h, ih]

theorem lookup_decStock (prods : List Product) (pid qpid : Nat) (q : Int) :
    lookupProduct (decStock prods qpid q) pid =
      (lookupProduct prods pid).map (stockAdj qpid q) :=
  lookupProduct_map _ (stockAdj_id qpid q) prods pid

theorem mem_userCart {db : DB} {uid : Nat} {ci : CartItem} :
    ci ∈ userCart db uid ↔ ci ∈ db.cartItems ∧ ci.user_id = uid := by
  simp [userCart, List.mem_filter]

-- Facts about the stock-check loop.

theorem stockCheck_ok {prods : List Product} {items : List CartItem}
    (h : stockCheck prods items = some none) :
    ∀ ci ∈ items, ∃ p, lookupProduct prods ci.product_id = some p ∧ ¬ p.stock < ci.quantity := by
  induction items with
  | nil => intro ci hci; cases hci
  | cons ci rest ih =>
    intro cj hcj
    unfold stockCheck at h
    cases hl : lookupProduct prods ci.product_id with
    | none => rw [hl] at h; cases h
    | some p =>
      rw [hl] at h
      by_cases hs : p.stock < ci.quantity
      · simp [hs] at h
      · simp [hs] at h
        rcases List.mem_cons.mp hcj with rfl | hcj'
        · exact ⟨p, hl, hs⟩
        · exact ih h cj hcj'

theorem stockCheck_fails {prods : List Product} {items : List CartItem}
    (hlook : ∀ ci ∈ items, (lookupProduct prods ci.product_id).isSome)
    (hfail : ∃ ci ∈ items, ∃ p, lookupProduct prods ci.product_id = some p ∧
      p.stock < ci.quantity) :
    ∃ n s, stockCheck prods items = some (some (n, s)) ∧
      ∃ ci ∈ items, ∃ p, lookupProduct prods ci.product_id = some p ∧
        p.name = n ∧ p.stock = s ∧ p.stock < ci.quantity := by
  induction items with
  | nil => rcases hfail with ⟨ci, hci, _⟩; cases hci
  | cons ci rest ih =>
    have hci := hlook ci (List.mem_cons_self ci rest)
    rcases Option.isSome_iff_exists.mp hci with ⟨p, hp⟩
    by_cases hs : p.stock < ci.quantity
    · refine ⟨p.name, p.stock, ?_, ci, List.mem_cons_self ci rest, p, hp, rfl, rfl, hs⟩
      unfold stockCheck
      rw [hp]
      simp [hs]
    · have hfail' : ∃ cj ∈ rest, ∃ q, lookupProduct prods cj.product_id = some q ∧
          q.stock < cj.quantity := by
        rcases hfail with ⟨cj, hcj, q, hq, hqs⟩
        rcases List.mem_cons.mp hcj with rfl | hcj'
        · rw [hp] at hq; cases hq; exact absurd hqs hs
        · exact ⟨cj, hcj', q, hq, hqs⟩
      rcases ih (fun cj hcj => hlook cj (List.mem_cons_of_mem ci hcj)) hfail' with
        ⟨n, s, hrun, cj, hcj, q, hq, hn, hsk, hqs⟩
      refine ⟨n, s, ?_, cj, List.mem_cons_of_mem ci hcj, q, hq, hn, hsk, hqs⟩
      unfold stockCheck
      rw [hp]
      simp [hs, hrun]

-- The stock decrement changes no price, so the cart total is invariant
-- under it.

theorem cartSum_decStock (prods : List Product) (qpid : Nat) (q : Int)
    (items : List CartItem) :
    cartSum (decStock prods qpid q) items = cartSum prods items := by
  induction items with
  | nil => rfl
  | cons ci rest ih =>
    unfold cartSum
    rw [lookup_decStock, ih]
    cases hl : lookupProduct prods ci.product_id with
    | none => rfl
    | some p => cases cartSum prods rest <;> simp [stockAdj_price]

-- Characterisation of the checkout write loop.

theorem checkoutLoop_sum {oid : Nat} {items : List CartItem} {prods : List Product}
    {nid : Nat} {ois : List OrderItem} {prodsF : List Product} {nidF : Nat}
    (h : checkoutLoop oid items prods nid = some (ois, prodsF, nidF)) :
    cartSum prods items = some (orderItemsSum ois) := by
  induction items generalizing prods nid ois with
  | nil =>
    unfold checkoutLoop at h
    cases h
    rfl
  | cons ci rest ih =>
    unfold checkoutLoop at h
    cases hl : lookupProduct prods ci.product_id with
    | none => rw [hl] at h; cases h
    | some p =>
      rw [hl] at h
      cases hrec : checkoutLoop oid rest (decStock prods ci.product_id ci.quantity) (nid + 1) with
      | none => rw [hrec] at h; cases h
      | some res =>
        obtain ⟨ois', prods', nid'⟩ := res
        rw [hrec] at h
        cases h
        have hsum := ih hrec
        rw [cartSum_decStock] at hsum
        unfold cartSum
        rw [hl, hsum]
        simp [orderItemsSum]

theorem checkoutLoop_order_ids {oid : Nat} {items : List CartItem} {prods : List Product}
    {nid : Nat} {ois : List OrderItem} {prodsF : List Product} {nidF : Nat}
    (h : checkoutLoop oid items prods nid = some (ois, prodsF, nidF)) :
    ∀ oi ∈ ois, oi.order_id = oid := by
  induction items generalizing prods nid ois with
  | nil =>
    unfold checkoutLoop at h
    cases h
    intro oi hoi
    cases hoi
  | cons ci rest ih =>
    unfold checkoutLoop at h
    cases hl : lookupProduct prods ci.product_id with
    | none => rw [hl] at h; cases h
    | some p =>
      rw [hl] at h
      cases hrec : checkoutLoop oid rest (decStock prods ci.product_id ci.quantity) (nid + 1) with
      | none => rw [hrec] at h; cases h
      | some res =>
        obtain ⟨ois', prods', nid'⟩ := res
        rw [hrec] at h
        cases h
        intro oi hoi
        rcases List.mem_cons.mp hoi with rfl | hoi'
        · rfl
        · exact ih hrec oi hoi'

theorem checkoutLoop_products {oid : Nat} {items : List CartItem} {prods : List Product}
    {nid : Nat} {ois : List OrderItem} {prodsF : List Product} {nidF : Nat}
    (h : checkoutLoop oid items prods nid = some (ois, prodsF, nidF)) :
    prodsF = items.foldl (fun ps ci => decStock ps ci.product_id ci.quantity) prods := by
  induction items generalizing prods nid ois with
  | nil =>
    unfold checkoutLoop at h
    cases h
    rfl
  | cons ci rest ih =>
    unfold checkoutLoop at h
    cases hl : lookupProduct prods ci.product_id with
    | none => rw [hl] at h; cases h
    | some p =>
      rw [hl] at h
      cases hrec : checkoutLoop oid rest (decStock prods ci.product_id ci.quantity) (nid + 1) with
      | none => rw [hrec] at h; cases h
      | some res =>
        obtain ⟨ois', prods', nid'⟩ := res
        rw [hrec] at h
        cases h
        exact ih hrec

theorem checkoutLoop_snapshot {oid : Nat} {items : List CartItem} {prods : List Product}
    {nid : Nat} {ois : List OrderItem} {prodsF : List Product} {nidF : Nat}
    (h : checkoutLoop oid items prods nid = some (ois, prodsF, nidF)) :
    ∀ oi ∈ ois, ∃ ci ∈ items, oi.product_id = ci.product_id ∧ oi.quantity = ci.quantity ∧
      ∃ p, lookupProduct prods ci.product_id = some p ∧ oi.price = p.price := by
  induction items generalizing prods nid ois with
  | nil =>
    unfold checkoutLoop at h
    cases h
    intro oi hoi
    cases hoi
  | cons ci rest ih =>
    unfold checkoutLoop at h
    cases hl : lookupProduct prods ci.product_id with
    | none => rw [hl] at h; cases h
    | some p =>
      rw [hl] at h
      cases hrec : checkoutLoop oid rest (decStock prods ci.product_id ci.quantity) (nid + 1) with
      | none => rw [hrec] at h; cases h
      | some res =>
        obtain ⟨ois', prods', nid'⟩ := res
        rw [hrec] at h
        cases h
        intro oi hoi
        rcases List.mem_cons.mp hoi with rfl | hoi'
        · exact ⟨ci, List.mem_cons_self ci rest, rfl, rfl, p, hl, rfl⟩
        · rcases ih hrec oi hoi' with ⟨cj, hcj, hpid, hq, p', hp', hprice⟩
          rw [lookup_decStock] at hp'
          cases hl' : lookupProduct prods cj.product_id with
          | none => rw [hl'] at hp'; cases hp'
          | some p0 =>
            rw [hl'] at hp'
            cases hp'
            exact ⟨cj, List.mem_cons_of_mem ci hcj, hpid, hq, p0,
              hl', by rw [hprice, stockAdj_price]⟩

-- The sequence of stock decrements is a single map over the products
-- table, each row folded through its own adjustments.

theorem foldl_decStock (items : List CartItem) (prods : List Product) :
    items.foldl (fun ps ci => decStock ps ci.product_id ci.quantity) prods =
      prods.map (fun p => items.foldl (fun p ci => stockAdj ci.product_id ci.quantity p) p) := by
  induction items generalizing prods with
  | nil => simp
  | cons ci rest ih =>
    simp only [List.foldl_cons]
    rw [ih]
    simp only [decStock, List.map_map]
    rfl

theorem foldl_stockAdj_of_not_mem {items : List CartItem} {p : Product}
    (h : ∀ ci ∈ items, p.id ≠ ci.product_id) :
    items.foldl (fun p ci => stockAdj ci.product_id ci.quantity p) p = p := by
  induction items with
  | nil => rfl
  | cons ci rest ih =>
    have hne : p.id ≠ ci.product_id := h ci (List.mem_cons_self ci rest)
    simp only [List.foldl_cons]
    rw [show stockAdj ci.product_id ci.quantity p = p by
      unfold stockAdj
      rw [if_neg (by simpa using hne)]]
    exact ih (fun cj hcj => h cj (List.mem_cons_of_mem ci hcj))

theorem foldl_stockAdj_unique {items : List CartItem} {p : Product} {ci0 : CartItem}
    (h0 : ci0 ∈ items) (hid : p.id = ci0.product_id)
    (hnodup : (items.map (fun ci => ci.product_id)).Nodup) :
    items.foldl (fun p ci => stockAdj ci.product_id ci.quantity p) p =
      { p with stock := max 0 (p.stock - ci0.quantity) } := by
  induction items with
  | nil => cases h0
  | cons ci rest ih =>
    simp only [List.map_cons, List.nodup_cons] at hnodup
    by_cases hc : p.id = ci.product_id
    · have hci0 : ci0.product_id = ci.product_id := by rw [← hid, hc]
      have : ci0 = ci ∨ ci0 ∈ rest := List.mem_cons.mp h0
      rcases this with rfl | hmem
      · simp only [List.foldl_cons]
        rw [show stockAdj ci0.product_id ci0.quantity p =
            { p with stock := max 0 (p.stock - ci0.quantity) } by
          unfold stockAdj
          rw [if_pos (by simpa using hid)]]
        exact foldl_stockAdj_of_not_mem (fun cj hcj hj => hnodup.1 (by
          rw [List.mem_map]
          exact ⟨cj, hcj, by rw [← hj, ← hid]⟩))
      · exact absurd (List.mem_map.mpr ⟨ci0, hmem, hci0⟩) hnodup.1
    · have hne : ci0 ≠ ci := by
        intro he
        rw [he] at hid
        exact hc hid
      have hmem : ci0 ∈ rest := (List.mem_cons.mp h0).resolve_left hne
      simp only [List.foldl_cons]
      rw [show stockAdj ci.product_id ci.quantity p = p by
        unfold stockAdj
        rw [if_neg (by simpa using hc)]]
      exact ih hmem hnodup.2

-- Inversion of a successful checkout into the state it commits.

theorem checkout_success_inv {db : DB} {uid : Nat} {db' : DB}
    (h : checkout db uid = some (.success, db')) :
    stockCheck db.products (userCart db uid) = some none ∧
    ∃ total ois prodsF nidF,
      cartSum db.products (userCart db uid) = some total ∧
      checkoutLoop db.nextOrderId (userCart db uid) db.products db.nextOrderItemId =
        some (ois, prodsF, nidF) ∧
      db' = { db with
        products := prodsF
        orders := db.orders ++ [{ id := db.nextOrderId, user_id := uid, total := total }]
        orderItems := db.orderItems ++ ois
        cartItems := db.cartItems.filter (fun ci => !(ci.user_id == uid))
        nextOrderId := db.nextOrderId + 1
        nextOrderItemId := nidF } := by
  unfold checkout at h
  by_cases hemp : (userCart db uid).isEmpty
  · rw [if_pos hemp] at h
    simp at h
  · rw [if_neg hemp] at h
    cases hsc : stockCheck db.products (userCart db uid) with
    | none => rw [hsc] at h; cases h
    | some chk =>
      rw [hsc] at h
      cases chk with
      | some pr =>
        obtain ⟨n, s⟩ := pr
        simp at h
      | none =>
        cases hcs : cartSum db.products (userCart db uid) with
        | none => rw [hcs] at h; cases h
        | some total =>
          rw [hcs] at h
          cases hcl : checkoutLoop db.nextOrderId (userCart db uid) db.products
              db.nextOrderItemId with
          | none => rw [hcl] at h; cases h
          | some res =>
            obtain ⟨ois, prodsF, nidF⟩ := res
            rw [hcl] at h
            simp only [Option.some.injEq, Prod.mk.injEq] at h
            exact ⟨rfl, total, ois, prodsF, nidF, rfl, rfl, h.2.symm⟩

theorem foldl_stockAdj_id (items : List CartItem) (p : Product) :
    (items.foldl (fun p ci => stockAdj ci.product_id ci.quantity p) p).id = p.id := by
  induction items generalizing p with
  | nil => rfl
  | cons ci rest ih =>
    simp only [List.foldl_cons]
    rw [ih, stockAdj_id]

theorem checkout_of_stockCheck_fail {db : DB} {uid : Nat} {n : String} {s : Int}
    (hne : ¬(userCart db uid).isEmpty = true)
    (hsc : stockCheck db.products (userCart db uid) = some (some (n, s))) :
    checkout db uid = some (.insufficientStock n s, db) := by
  simp only [checkout]
  rw [if_neg hne, hsc]

/-- C1: for every user with a non-empty cart whose lines all reference
existing products, if any cart line's quantity exceeds that product's
current stock, checkout returns the insufficient-stock error naming an
offending product and its available stock, and the post-state is the
unchanged database: no order, order item, stock change or cart deletion. -/
theorem checkout_insufficient_stock_aborts (db : DB) (uid : Nat)
    (hne : userCart db uid ≠ [])
    (hlook : ∀ ci ∈ userCart db uid, (lookupProduct db.products ci.product_id).isSome)
    (hfail : ∃ ci ∈ userCart db uid, ∃ p, lookupProduct db.products ci.product_id = some p ∧
      p.stock < ci.quantity) :
    ∃ n s, checkout db uid = some (.insufficientStock n s, db) ∧
      ∃ ci ∈ userCart db uid, ∃ p, lookupProduct db.products ci.product_id = some p ∧
        p.name = n ∧ p.stock = s ∧ p.stock < ci.quantity := by
  rcases stockCheck_fails hlook hfail with ⟨n, s, hrun, hw⟩
  exact ⟨n, s, checkout_of_stockCheck_fail (by simpa using hne) hrun, hw⟩

/-- C5: when checkout's stock check passed (which every successful
checkout implies), every cart line already satisfies
`quantity ≤ stock`, so the defensive floor in the stock decrement is
the identity: `max 0 (stock - quantity) = stock - quantity`. -/
theorem checkout_floor_redundant (db : DB) (uid : Nat) (db' : DB)
    (hck : checkout db uid = some (.success, db')) :
    ∀ ci ∈ userCart db uid, ∀ p, lookupProduct db.products ci.product_id = some p →
      ci.quantity ≤ p.stock ∧ max 0 (p.stock - ci.quantity) = p.stock - ci.quantity := by
  obtain ⟨hsc, _⟩ := checkout_success_inv hck
  intro ci hci p hp
  rcases stockCheck_ok hsc ci hci with ⟨p', hp', hs⟩
  rw [hp] at hp'
  cases hp'
  have hle : ci.quantity ≤ p.stock := not_lt.mp hs
  exact ⟨hle, max_eq_right (by omega)⟩

/-- C3: for every product purchased in a successful checkout (with, as
the data model requires, at most one cart line per product), its stock
afterwards is its stock before minus the purchased quantity, floored
at 0. -/
theorem checkout_stock_after (db : DB) (uid : Nat) (db' : DB) (ci : CartItem) (p : Product)
    (hck : checkout db uid = some (.success, db'))
    (hci : ci ∈ userCart db uid)
    (hp : lookupProduct db.products ci.product_id = some p)
    (hnodup : ((userCart db uid).map (fun ci => ci.product_id)).Nodup) :
    lookupProduct db'.products ci.product_id =
      some { p with stock := max 0 (p.stock - ci.quantity) } := by
  obtain ⟨hsc, total, ois, prodsF, nidF, hcs, hcl, hdb⟩ := checkout_success_inv hck
  have hprods : db'.products = prodsF := by rw [hdb]
  have hpid : p.id = ci.product_id := by simpa using List.find?_some hp
  rw [hprods, checkoutLoop_products hcl, foldl_decStock,
    lookupProduct_map _ (fun q => foldl_stockAdj_id (userCart db uid) q), hp]
  simp only [Option.map_some']
  rw [foldl_stockAdj_unique hci hpid hnodup]

/-- C2: after a successful checkout the user's cart is empty, and the
created order's total equals exactly the sum over its order items of
price times quantity. -/
theorem checkout_cart_empty_and_total (db : DB) (uid : Nat) (db' : DB)
    (hck : checkout db uid = some (.success, db'))
    (hfresh : ∀ oi ∈ db.orderItems, oi.order_id ≠ db.nextOrderId) :
    userCart db' uid = [] ∧
    ∃ o ∈ db'.orders, o.id = db.nextOrderId ∧ o.user_id = uid ∧
      o.total = orderItemsSum (orderItemsOf db' o.id) := by
  obtain ⟨hsc, total, ois, prodsF, nidF, hcs, hcl, hdb⟩ := checkout_success_inv hck
  subst hdb
  constructor
  · simp [userCart, List.filter_filter]
  · refine ⟨{ id := db.nextOrderId, user_id := uid, total := total }, ?_, rfl, rfl, ?_⟩
    · simp
    · have hids := checkoutLoop_order_ids hcl
      have hsum := checkoutLoop_sum hcl
      rw [hcs] at hsum
      have htotal : total = orderItemsSum ois := Option.some.inj hsum
      unfold orderItemsOf
      show total = orderItemsSum (List.filter _ (db.orderItems ++ ois))
      rw [List.filter_append]
      have h1 : db.orderItems.filter (fun oi => oi.order_id == db.nextOrderId) = [] := by
        rw [List.filter_eq_nil_iff]
        intro oi hoi
        simpa using hfresh oi hoi
      have h2 : ois.filter (fun oi => oi.order_id == db.nextOrderId) = ois := by
        rw [List.filter_eq_self]
        intro oi hoi
        simpa using hids oi hoi
      rw [h1, h2, List.nil_append, htotal]

/-- C4: every order item created by a successful checkout snapshots the
product id, quantity and the product's live price at checkout time, and
a later change to the live product price (which touches only the
products table) alters neither the stored order items nor any order's
total. -/
theorem checkout_price_snapshot (db : DB) (uid : Nat) (db' : DB)
    (hck : checkout db uid = some (.success, db')) :
    ∃ ois, db'.orderItems = db.orderItems ++ ois ∧
      (∀ oi ∈ ois, ∃ ci ∈ userCart db uid, oi.product_id = ci.product_id ∧
        oi.quantity = ci.quantity ∧
        ∃ p, lookupProduct db.products ci.product_id = some p ∧ oi.price = p.price) ∧
      ∀ pid newPrice, (setPrice db' pid newPrice).orderItems = db'.orderItems ∧
        (setPrice db' pid newPrice).orders = db'.orders := by
  obtain ⟨hsc, total, ois, prodsF, nidF, hcs, hcl, hdb⟩ := checkout_success_inv hck
  subst hdb
  exact ⟨ois, rfl, checkoutLoop_snapshot hcl, fun pid np => ⟨rfl, rfl⟩⟩

/-- C9: a successful checkout touches only the checking-out user's cart
lines and the purchased products' stock: users and categories are
untouched, other users' cart lines survive, all previously existing
orders and order items survive, and every product not in the user's
cart is unchanged (stock and price included). -/
theorem checkout_frame (db : DB) (uid : Nat) (db' : DB)
    (hck : checkout db uid = some (.success, db')) :
    db'.users = db.users ∧ db'.categories = db.categories ∧
    (∀ ci ∈ db.cartItems, ci.user_id ≠ uid → ci ∈ db'.cartItems) ∧
    (∀ o ∈ db.orders, o ∈ db'.orders) ∧
    (∀ oi ∈ db.orderItems, oi ∈ db'.orderItems) ∧
    (∀ p ∈ db.products, (∀ ci ∈ userCart db uid, ci.product_id ≠ p.id) → p ∈ db'.products) := by
  obtain ⟨hsc, total, ois, prodsF, nidF, hcs, hcl, hdb⟩ := checkout_success_inv hck
  subst hdb
  refine ⟨rfl, rfl, ?_, ?_, ?_, ?_⟩
  · intro ci hci hciuid
    show ci ∈ List.filter _ db.cartItems
    rw [List.mem_filter]
    exact ⟨hci, by simpa using hciuid⟩
  · intro o ho
    show o ∈ db.orders ++ _
    exact List.mem_append_left _ ho
  · intro oi hoi
    show oi ∈ db.orderItems ++ _
    exact List.mem_append_left _ hoi
  · intro p hp hnp
    show p ∈ prodsF
    rw [checkoutLoop_products hcl, foldl_decStock]
    refine List.mem_map.mpr ⟨p, hp, ?_⟩
    exact foldl_stockAdj_of_not_mem (fun ci hci => (hnp ci hci).symm)

-- Membership facts for the first-match update and delete helpers.

theorem mem_updateFirst {pred : α → Bool} {f : α → α} {l : List α} {x : α}
    (h : x ∈ updateFirst pred f l) : x ∈ l ∨ ∃ y ∈ l, x = f y := by
  induction l with
  | nil => cases h
  | cons a rest ih =>
    unfold updateFirst at h
    by_cases hp : pred a
    · rw [if_pos hp] at h
      rcases List.mem_cons.mp h with rfl | h'
      · exact Or.inr ⟨a, List.mem_cons_self a rest, rfl⟩
      · exact Or.inl (List.mem_cons_of_mem a h')
    · rw [if_neg hp] at h
      rcases List.mem_cons.mp h with rfl | h'
      · exact Or.inl (List.mem_cons_self x rest)
      · rcases ih h' with h'' | ⟨y, hy, rfl⟩
        · exact Or.inl (List.mem_cons_of_mem a h'')
        · exact Or.inr ⟨y, List.mem_cons_of_mem a hy, rfl⟩

theorem mem_removeFirst {pred : α → Bool} {l : List α} {x : α}
    (h : x ∈ removeFirst pred l) : x ∈ l := by
  induction l with
  | nil => cases h
  | cons a rest ih =>
    unfold removeFirst at h
    by_cases hp : pred a
    · rw [if_pos hp] at h
      exact List.mem_cons_of_mem a h
    · rw [if_neg hp] at h
      rcases List.mem_cons.mp h with rfl | h'
      · exact List.mem_cons_self x rest
      · exact List.mem_cons_of_mem a (ih h')

theorem clampQuantity_bounds (q : Int) : 1 ≤ clampQuantity q ∧ clampQuantity q ≤ 100 :=
  ⟨le_min (le_max_left 1 q) (by norm_num), min_le_right _ _⟩

theorem cartUpdateStep_ok {uid : Nat} {db : DB} (hdb : cartQuantitiesOK db)
    (kv : String × String) : cartQuantitiesOK (cartUpdateStep uid db kv) := by
  unfold cartUpdateStep
  split
  · split
    · intro ci hci
      simp only at hci
      rcases mem_updateFirst hci with h | ⟨y, hy, rfl⟩
      · exact hdb ci h
      · exact clampQuantity_bounds _
    · exact hdb
  · exact hdb

theorem cartUpdateStep_nonnumeric (uid : Nat) (db : DB) (key v : String)
    (hv : String.toInt? v = none) : cartUpdateStep uid db (key, v) = db := by
  unfold cartUpdateStep
  split
  · split <;> simp_all
  · rfl

theorem cartUpdate_single (db : DB) (uid : Nat) (kv : String × String) :
    cartUpdate db uid [kv] = cartUpdateStep uid db kv := by
  simp only [cartUpdate, List.foldl_cons, List.foldl_nil]

theorem cartUpdate_ok {uid : Nat} (form : List (String × String)) :
    ∀ db : DB, cartQuantitiesOK db → cartQuantitiesOK (cartUpdate db uid form) := by
  induction form with
  | nil => exact fun db hdb => hdb
  | cons kv form ih =>
    intro db hdb
    have h1 : cartUpdate db uid (kv :: form) = cartUpdate (cartUpdateStep uid db kv) uid form := by
      simp only [cartUpdate, List.foldl_cons]
    rw [h1]
    exact ih _ (cartUpdateStep_ok hdb kv)

/-- C6: every cart mutation keeps every cart line's quantity in
`[1,100]`: the bulk quantity update clamps numeric inputs (negative,
zero, over 100) into the range and ignores non-numeric ones, removal
only deletes lines, and add-to-cart increments capped at 100 or inserts
with quantity 1, so starting from a cart satisfying the invariant no
operation ever produces a quantity outside `[1,100]`. -/
theorem cart_mutations_keep_quantity_bounds (db : DB) (uid : Nat)
    (hdb : cartQuantitiesOK db) :
    (∀ form, cartQuantitiesOK (cartUpdate db uid form)) ∧
    (∀ key v, String.toInt? v = none → cartUpdate db uid [(key, v)] = db) ∧
    (∀ v, cartQuantitiesOK (cartRemove db uid v)) ∧
    (∀ pid db', add_to_cart db uid pid = some db' → cartQuantitiesOK db') := by
  refine ⟨fun form => cartUpdate_ok form db hdb,
    fun key v hv => (cartUpdate_single db uid (key, v)).trans
      (cartUpdateStep_nonnumeric uid db key v hv), ?_, ?_⟩
  · intro v ci hci
    unfold cartRemove at hci
    cases hv : String.toInt? v with
    | none => rw [hv] at hci; exact hdb ci hci
    | some pid =>
      rw [hv] at hci
      simp only at hci
      exact hdb ci (mem_removeFirst hci)
  · intro pid db' h ci hci
    unfold add_to_cart at h
    cases hl : lookupProduct db.products pid with
    | none => rw [hl] at h; cases h
    | some p =>
      rw [hl] at h
      cases hf : db.cartItems.find? (fun ci => ci.user_id == uid && ci.product_id == pid) with
      | some found =>
        rw [hf] at h
        simp only [Option.some.injEq] at h
        subst h
        simp only at hci
        rcases mem_updateFirst hci with hm | ⟨y, hy, rfl⟩
        · exact hdb ci hm
        · have hyb := hdb y hy
          exact ⟨le_min (by omega) (by norm_num), min_le_right _ _⟩
      | none =>
        rw [hf] at h
        simp only [Option.some.injEq] at h
        subst h
        simp only at hci
        rcases List.mem_append.mp hci with hm | hm
        · exact hdb ci hm
        · rcases List.mem_singleton.mp hm with rfl
          exact ⟨le_refl 1, by norm_num⟩

-- Catalog listing facts.

theorem paginate_sublist (page : Int) (l : List Product) : (paginate page l).Sublist l :=
  (List.take_sublist _ _).trans (List.drop_sublist _ _)

theorem mem_applySort {s : String} {l : List Product} {x : Product}
    (h : x ∈ applySort s l) : x ∈ l := by
  unfold applySort at h
  split at h
  · exact (List.mem_insertionSort _).mp h
  · split at h
    · exact (List.mem_insertionSort _).mp h
    · exact (List.mem_insertionSort _).mp h

theorem mem_applyCategory {c : Option String} {l : List Product} {x : Product}
    (h : x ∈ applyCategory c l) : x ∈ l := by
  unfold applyCategory at h
  split at h
  · exact h
  · split at h
    · exact h
    · split at h
      · exact h
      · exact List.mem_of_mem_filter h

theorem mem_applySearch {s : Option String} {l : List Product} {x : Product}
    (h : x ∈ applySearch s l) : x ∈ l := by
  unfold applySearch at h
  split at h
  · exact h
  · split at h
    · exact h
    · exact List.mem_of_mem_filter h

/-- C7: every catalog page contains at most 6 items, and with
`sort=price_high` the returned page is in non-increasing price order. -/
theorem home_page_size_and_price_sorted (db : DB) (page : Int)
    (search category : Option String) :
    (∀ sort, (home db page search category sort).length ≤ 6) ∧
    (home db page search category "price_high").Pairwise
      (fun a b => b.price ≤ a.price) := by
  constructor
  · intro sort
    unfold home paginate
    exact List.length_take_le _ _
  · unfold home
    apply List.Pairwise.sublist (paginate_sublist _ _)
    unfold applySort
    rw [if_neg (by decide), if_pos (by decide)]
    haveI : IsTotal Product (fun a b => b.price ≤ a.price) :=
      ⟨fun a b => le_total b.price a.price⟩
    haveI : IsTrans Product (fun a b => b.price ≤ a.price) :=
      ⟨fun a b c h1 h2 => le_trans h2 h1⟩
    exact List.sorted_insertionSort _ _

/-- C10: the catalog listing joins products with categories, so every
product on any home page (for every search, category filter, sort and
page) has a `category_id` referencing an existing category; a product
with a null or dangling `category_id` never appears. -/
theorem home_products_are_joined (db : DB) (page : Int)
    (search category : Option String) (sort : String) (p : Product)
    (hp : p ∈ home db page search category sort) :
    ∃ c ∈ db.categories, p.category_id = some c.id := by
  unfold home at hp
  have h1 := (paginate_sublist page _).mem hp
  have h2 := mem_applyCategory (mem_applySort h1)
  have h3 := mem_applySearch h2
  unfold joinCategories at h3
  have h4 := List.of_mem_filter h3
  rcases List.any_eq_true.mp h4 with ⟨c, hc, hcc⟩
  exact ⟨c, hc, by simpa using hcc⟩

-- Account facts.

theorem find?_append_of_none {p : α → Bool} {l₁ l₂ : List α}
    (h : l₁.find? p = none) : (l₁ ++ l₂).find? p = l₂.find? p := by
  induction l₁ with
  | nil => rfl
  | cons a rest ih =>
    cases hp : p a with
    | true =>
      exfalso
      have hsome : List.find? p (a :: rest) = some a := by simp [List.find?, hp]
      rw [h] at hsome
      cases hsome
    | false =>
      have h1 : List.find? p rest = none := by
        have he : List.find? p (a :: rest) = List.find? p rest := by simp [List.find?, hp]
        rw [← he, h]
      have h2 : List.find? p ((a :: rest) ++ l₂) = List.find? p (rest ++ l₂) := by
        simp [List.find?, hp]
      rw [h2, ih h1]

/-- C8: registering with an email that already belongs to an account
fails with the duplicate-email outcome and leaves the stored users
unchanged; registering with a fresh email stores the hashed password,
and logging in with that email and the original password then succeeds
(given that the external hash check accepts a freshly generated hash). -/
theorem register_duplicate_and_roundtrip (gen : String → String) (chk : String → String → Bool)
    (hround : ∀ pw, chk (gen pw) pw = true)
    (db : DB) (email pw nm addr : String) :
    ((∃ u ∈ db.users, u.email = email) →
      register gen db email pw nm addr = (.emailTaken, db)) ∧
    ((∀ u ∈ db.users, u.email ≠ email) →
      ∃ db', register gen db email pw nm addr = (.registered, db') ∧
        db'.users = db.users ++
          [{ id := db.nextUserId, email := email, password := gen pw,
             name := nm, address := addr }] ∧
        login chk db' email pw = some db.nextUserId) := by
  constructor
  · rintro ⟨u, hu, he⟩
    simp only [register]
    cases hf : db.users.find? (fun u => u.email == email) with
    | some v => rfl
    | none =>
      exfalso
      exact absurd (by simpa using he) (by simpa using List.find?_eq_none.mp hf u hu)
  · intro hfresh
    have hf : db.users.find? (fun u => u.email == email) = none :=
      List.find?_eq_none.mpr (fun u hu => by simpa using hfresh u hu)
    refine ⟨{ db with
        users := db.users ++
          [{ id := db.nextUserId, email := email, password := gen pw,
             name := nm, address := addr }]
        nextUserId := db.nextUserId + 1 }, ?_, rfl, ?_⟩
    · simp only [register]
      rw [hf]
    · simp [login, hf, hround pw]

-- Witnesses instantiating each hypothesis-bearing claim theorem at a
-- concrete state.

/-- Witness for C1 at a concrete state with quantity 15 against
stock 10. -/
theorem checkout_insufficient_stock_aborts_witness :
    ∃ n s, checkout sampleDBOver 1 = some (.insufficientStock n s, sampleDBOver) ∧
      ∃ ci ∈ userCart sampleDBOver 1, ∃ p,
        lookupProduct sampleDBOver.products ci.product_id = some p ∧
        p.name = n ∧ p.stock = s ∧ p.stock < ci.quantity :=
  checkout_insufficient_stock_aborts sampleDBOver 1 (by decide) (by decide)
    ⟨⟨1, 1, 1, 15⟩, by decide, sampleProduct, rfl, by decide⟩

/-- Witness for C2 at the sample checkout. -/
theorem checkout_cart_empty_and_total_witness :
    userCart sampleDBAfter 1 = [] ∧
    ∃ o ∈ sampleDBAfter.orders, o.id = sampleDB.nextOrderId ∧ o.user_id = 1 ∧
      o.total = orderItemsSum (orderItemsOf sampleDBAfter o.id) :=
  checkout_cart_empty_and_total sampleDB 1 sampleDBAfter checkout_sampleDB_eq (by decide)

/-- Witness for C3 at the sample checkout: stock 10 drops to 8. -/
theorem checkout_stock_after_witness :
    lookupProduct sampleDBAfter.products 1 =
      some { id := 1, name := "Widget", description := "", price := 5, image := "",
             category_id := some 1, stock := max 0 (10 - 2) } :=
  checkout_stock_after sampleDB 1 sampleDBAfter ⟨1, 1, 1, 2⟩ sampleProduct
    checkout_sampleDB_eq (by decide) rfl (by decide)

/-- Witness for C4 at the sample checkout. -/
theorem checkout_price_snapshot_witness :
    ∃ ois, sampleDBAfter.orderItems = sampleDB.orderItems ++ ois ∧
      (∀ oi ∈ ois, ∃ ci ∈ userCart sampleDB 1, oi.product_id = ci.product_id ∧
        oi.quantity = ci.quantity ∧
        ∃ p, lookupProduct sampleDB.products ci.product_id = some p ∧ oi.price = p.price) ∧
      ∀ pid newPrice,
        (setPrice sampleDBAfter pid newPrice).orderItems = sampleDBAfter.orderItems ∧
        (setPrice sampleDBAfter pid newPrice).orders = sampleDBAfter.orders :=
  checkout_price_snapshot sampleDB 1 sampleDBAfter checkout_sampleDB_eq

/-- Witness for C5 at the sample checkout: quantity 2 against stock 10,
where the floor is the identity. -/
theorem checkout_floor_redundant_witness :
    (2 : Int) ≤ 10 ∧ max 0 ((10 : Int) - 2) = 10 - 2 :=
  checkout_floor_redundant sampleDB 1 sampleDBAfter checkout_sampleDB_eq
    ⟨1, 1, 1, 2⟩ (by decide) sampleProduct rfl

/-- Witness for C6: an over-limit numeric update and a non-numeric
update on the sample cart. -/
theorem cart_mutations_keep_quantity_bounds_witness :
    cartQuantitiesOK sampleDB ∧
    cartQuantitiesOK (cartUpdate sampleDB 1 [("quantity_1", "500")]) :=
  ⟨by unfold cartQuantitiesOK; decide,
    (cart_mutations_keep_quantity_bounds sampleDB 1
      (by unfold cartQuantitiesOK; decide)).1 [("quantity_1", "500")]⟩

/-- Witness for C8: registering a fresh email on the sample state and
logging back in. -/
theorem register_duplicate_and_roundtrip_witness :
    ∃ db', register genW sampleDB "new@example.com" "pw" "N" "A" = (.registered, db') ∧
      db'.users = sampleDB.users ++
        [{ id := sampleDB.nextUserId, email := "new@example.com", password := genW "pw",
           name := "N", address := "A" }] ∧
      login chkW db' "new@example.com" "pw" = some sampleDB.nextUserId :=
  (register_duplicate_and_roundtrip genW chkW (fun pw => by simp [genW, chkW]) sampleDB
    "new@example.com" "pw" "N" "A").2 (by decide)

/-- Witness for C9 at the sample checkout. -/
theorem checkout_frame_witness :
    sampleDBAfter.users = sampleDB.users ∧ sampleDBAfter.categories = sampleDB.categories ∧
    (∀ ci ∈ sampleDB.cartItems, ci.user_id ≠ 1 → ci ∈ sampleDBAfter.cartItems) ∧
    (∀ o ∈ sampleDB.orders, o ∈ sampleDBAfter.orders) ∧
    (∀ oi ∈ sampleDB.orderItems, oi ∈ sampleDBAfter.orderItems) ∧
    (∀ p ∈ sampleDB.products, (∀ ci ∈ userCart sampleDB 1, ci.product_id ≠ p.id) →
      p ∈ sampleDBAfter.products) :=
  checkout_frame sampleDB 1 sampleDBAfter checkout_sampleDB_eq

/-- Witness for C10: the sample product appears on the sample home page
and its category reference resolves. -/
theorem home_products_are_joined_witness :
    sampleProduct ∈ home sampleDB 1 none none "name" ∧
    ∃ c ∈ sampleDB.categories, sampleProduct.category_id = some c.id := by
  have hp : sampleProduct ∈ home sampleDB 1 none none "name" := by
    simp [home, paginate, applySort, applyCategory, applySearch, joinCategories,
      sampleDB, sampleProduct]
  exact ⟨hp, home_products_are_joined sampleDB 1 none none "name" sampleProduct hp⟩
